import Mathlib

/-!
Verification of the typed-value decoding, schema-inference and
predicate-filtering engine of `dynamodb_extractor.py`.

The wire format of the backing store encodes every attribute value as a
single-key discriminated union (one type tag per value).  We embed that
union as the inductive type `AttrValue`; raw items are association lists
from attribute names to values (Python dicts have unique keys and
insertion-order iteration, which an association list models faithfully
for the properties considered here).

Python `bytes` payloads (tag `B`, and the elements of tag `BS`) are
modelled as lists of byte values.  Python `float` results are modelled
as the exact decimal rational the parsed text denotes; binary rounding
and overflow to infinity of the IEEE double are not modelled, and
`Decimal` payloads never occur because the low-level client returns
numbers as strings.  Code that can raise is modelled in `Except Unit`.
-/

/-- Wire-format attribute value: exactly one populated type tag
(`src/dynamodb_extractor.py` reads items produced by the low-level
DynamoDB client, where `S`/`N` carry text, `B` carries bytes, `BOOL` and
`NULL` carry booleans, the set tags carry element lists, and `L`/`M`
carry nested wire-format values). -/
inductive AttrValue where
  | S (s : String)
  | N (s : String)
  | B (b : List Nat)
  | BOOL (b : Bool)
  | NULL (b : Bool)
  | SS (l : List String)
  | NS (l : List String)
  | BS (l : List (List Nat))
  | L (l : List AttrValue)
  | M (m : List (String × AttrValue))

/-- A raw item: mapping from attribute name to wire-format value. -/
abbrev RawItem : Type := List (String × AttrValue)

/-- Decoded flat cell value of `convert_dynamodb_item_to_dict`:
a Python str, int, float, bool or None. -/
inductive Flat where
  | str (s : String)
  | int (n : Int)
  | float (q : ℚ)
  | bool (b : Bool)
  | null
deriving DecidableEq

/-- Dict lookup on the association-list model of a Python dict
(`filter_key in item` / `item[filter_key]`). -/
def lookupAttr (item : RawItem) (k : String) : Option AttrValue :=
  match item with
  | [] => none
  | kv :: rest => if kv.1 = k then some kv.2 else lookupAttr rest k

/-- Textual form of a Python bool (`str(True)` and `str(False)`). -/
def pyBool (b : Bool) : String :=
  if b then "True" else "False"

/-- Hexadecimal digit character (lowercase, as CPython prints escapes). -/
def hexDigitChar (n : Nat) : Char :=
  if n < 10 then Char.ofNat (48 + n) else Char.ofNat (87 + n)

/-- Two-digit hexadecimal rendering of a byte. -/
def hex2 (n : Nat) : String :=
  String.mk [hexDigitChar (n / 16 % 16), hexDigitChar (n % 16)]

/-- Four-digit hexadecimal rendering of a code unit. -/
def hex4 (n : Nat) : String :=
  String.mk [hexDigitChar (n / 4096 % 16), hexDigitChar (n / 256 % 16),
             hexDigitChar (n / 16 % 16), hexDigitChar (n % 16)]

/-- Escape of one character by `json.dumps` (default `ensure_ascii=True`:
ASCII printable characters pass through, short escapes for the usual
control characters, `\uXXXX` otherwise, surrogate pairs beyond the BMP). -/
def jsonEscapeChar (c : Char) : String :=
  if c = '"' then "\\\""
  else if c = '\\' then "\\\\"
  else if c.toNat = 8 then "\\b"
  else if c.toNat = 9 then "\\t"
  else if c.toNat = 10 then "\\n"
  else if c.toNat = 12 then "\\f"
  else if c.toNat = 13 then "\\r"
  else if c.toNat < 32 then "\\u" ++ hex4 c.toNat
  else if c.toNat < 127 then String.singleton c
  else if c.toNat ≤ 65535 then "\\u" ++ hex4 c.toNat
  else
    "\\u" ++ hex4 (55296 + (c.toNat - 65536) / 1024) ++
    "\\u" ++ hex4 (56320 + (c.toNat - 65536) % 1024)

/-- JSON escape of a whole string. -/
def jsonEscape (s : String) : String :=
  String.join (s.toList.map jsonEscapeChar)

/-- JSON string literal (quoted escaped text). -/
def jsonQ (s : String) : String :=
  "\"" ++ jsonEscape s ++ "\""

/-- Comma-space-joined JSON string literals (`json.dumps` of a list of
strings, without the surrounding brackets). -/
def jsonQElems : List String → String
  | [] => ""
  | [x] => jsonQ x
  | x :: rest => jsonQ x ++ ", " ++ jsonQElems rest

/-- JSON rendering of a list of strings. -/
def jsonQList (l : List String) : String :=
  "[" ++ jsonQElems l ++ "]"

/-- Escape of one byte inside a Python `bytes` repr with quote
character `q`. -/
def byteRepr (q : Char) (b : Nat) : String :=
  if b = 92 then "\\\\"
  else if b = q.toNat then "\\" ++ String.singleton q
  else if b = 9 then "\\t"
  else if b = 10 then "\\n"
  else if b = 13 then "\\r"
  else if 32 ≤ b ∧ b ≤ 126 then String.singleton (Char.ofNat b)
  else "\\x" ++ hex2 b

/-- Python `str(bytes)`: the `b'...'` repr, switching to double quotes
when the payload contains a single quote but no double quote. -/
def pyBytesRepr (bs : List Nat) : String :=
  let q : Char := if bs.contains 39 && !(bs.contains 34) then '"' else '\''
  "b" ++ String.singleton q ++ String.join (bs.map (byteRepr q)) ++ String.singleton q

/-- Escape of one character inside a Python `str` repr with quote
character `q`. -/
def pyReprChar (q : Char) (c : Char) : String :=
  if c = '\\' then "\\\\"
  else if c = q then "\\" ++ String.singleton q
  else if c.toNat = 9 then "\\t"
  else if c.toNat = 10 then "\\n"
  else if c.toNat = 13 then "\\r"
  else if c.toNat < 32 ∨ c.toNat = 127 then "\\x" ++ hex2 c.toNat
  else String.singleton c

/-- Python `repr(str)`: single-quoted unless the text contains a single
quote and no double quote. -/
def pyRepr (s : String) : String :=
  let q : Char := if s.toList.contains '\'' && !(s.toList.contains '"') then '"' else '\''
  String.singleton q ++ String.join (s.toList.map (pyReprChar q)) ++ String.singleton q

mutual
/-- Python `str()` of the wire-format dict of one attribute value,
e.g. `str({'SS': ['a', 'b']})`; used by `apply_filters` for tags other
than `S`, `N`, `BOOL`, `NULL`. -/
def pyStrAttr : AttrValue → String
  | .S s => "\x7b'S': " ++ pyRepr s ++ "\x7d"
  | .N s => "\x7b'N': " ++ pyRepr s ++ "\x7d"
  | .B b => "\x7b'B': " ++ pyBytesRepr b ++ "\x7d"
  | .BOOL b => "\x7b'BOOL': " ++ pyBool b ++ "\x7d"
  | .NULL b => "\x7b'NULL': " ++ pyBool b ++ "\x7d"
  | .SS l => "\x7b'SS': [" ++ String.intercalate ", " (l.map pyRepr) ++ "]\x7d"
  | .NS l => "\x7b'NS': [" ++ String.intercalate ", " (l.map pyRepr) ++ "]\x7d"
  | .BS l => "\x7b'BS': [" ++ String.intercalate ", " (l.map pyBytesRepr) ++ "]\x7d"
  | .L l => "\x7b'L': [" ++ pyStrElems l ++ "]\x7d"
  | .M m => "\x7b'M': \x7b" ++ pyStrEntries m ++ "\x7d\x7d"
/-- Comma-space-joined reprs of the elements of a wire-format list. -/
def pyStrElems : List AttrValue → String
  | [] => ""
  | [v] => pyStrAttr v
  | v :: rest => pyStrAttr v ++ ", " ++ pyStrElems rest
/-- Comma-space-joined `key: value` reprs of the entries of a
wire-format map. -/
def pyStrEntries : List (String × AttrValue) → String
  | [] => ""
  | [kv] => pyRepr kv.1 ++ ": " ++ pyStrAttr kv.2
  | kv :: rest => pyRepr kv.1 ++ ": " ++ pyStrAttr kv.2 ++ ", " ++ pyStrEntries rest
end

/-- Python `str.strip()` on the character-list level (drop leading and
trailing whitespace). -/
def pyStripL (cs : List Char) : List Char :=
  ((cs.dropWhile Char.isWhitespace).reverse.dropWhile Char.isWhitespace).reverse

/-- Python `str.strip()`. -/
def pyStrip (s : String) : String :=
  String.mk (pyStripL s.toList)

/-- Digit run in the grammar of Python `int()`/`float()` literals:
underscores allowed only between digits.  Accumulates the value and the
number of digits consumed. -/
def parseDigitsUGo (acc len : Nat) : List Char → Option (Nat × Nat)
  | [] => some (acc, len)
  | '_' :: c :: cs =>
      if c.isDigit then parseDigitsUGo (acc * 10 + (c.toNat - 48)) (len + 1) cs else none
  | ['_'] => none
  | c :: cs =>
      if c.isDigit then parseDigitsUGo (acc * 10 + (c.toNat - 48)) (len + 1) cs else none

/-- Nonempty digit run with optional internal underscores; returns the
value and the digit count, or `none` when malformed. -/
def parseDigitsUCount (cs : List Char) : Option (Nat × Nat) :=
  match cs with
  | [] => none
  | c :: rest => if c.isDigit then parseDigitsUGo (c.toNat - 48) 1 rest else none

/-- Possibly-empty digit run (used for the integer and fractional parts
of a float literal, each of which may be absent). -/
def parseUDigitsOpt (cs : List Char) : Option (Nat × Nat) :=
  match cs with
  | [] => some (0, 0)
  | _ => parseDigitsUCount cs

/-- Python `int(str)`: strip whitespace, optional sign, digit run.
`none` models `ValueError`. -/
def pyInt (s : String) : Option Int :=
  match pyStripL s.toList with
  | '+' :: rest => (parseDigitsUCount rest).map (fun p => (p.1 : Int))
  | '-' :: rest => (parseDigitsUCount rest).map (fun p => -(p.1 : Int))
  | rest => (parseDigitsUCount rest).map (fun p => (p.1 : Int))

/-- Split a character list at the first occurrence of `c`; `none` when
`c` does not occur. -/
def splitAtChar (c : Char) : List Char → Option (List Char × List Char)
  | [] => none
  | x :: xs =>
      if x = c then some ([], xs)
      else (splitAtChar c xs).map (fun p => (x :: p.1, p.2))

/-- Split a character list at the first `e` or `E` (exponent marker of a
float literal). -/
def splitAtExp : List Char → Option (List Char × List Char)
  | [] => none
  | x :: xs =>
      if x = 'e' || x = 'E' then some ([], xs)
      else (splitAtExp xs).map (fun p => (x :: p.1, p.2))

/-- Mantissa of a float literal: digits, or digits with one decimal
point and at least one digit overall.  Returns the unsigned scaled
significand together with the number of fractional digits, so that the
denoted value is the first component over `10 ^` the second. -/
def parseMantissa (cs : List Char) : Option (Nat × Nat) :=
  match splitAtChar '.' cs with
  | none => (parseDigitsUCount cs).map (fun p => (p.1, 0))
  | some (ip, fp) => do
      let i ← parseUDigitsOpt ip
      let f ← parseUDigitsOpt fp
      if i.2 + f.2 = 0 then none
      else some (i.1 * 10 ^ f.2 + f.1, f.2)

/-- Exponent part of a float literal (after the `e`): optional sign and
a digit run. -/
def parseExp (cs : List Char) : Option Int :=
  match cs with
  | '+' :: rest => (parseDigitsUCount rest).map (fun p => (p.1 : Int))
  | '-' :: rest => (parseDigitsUCount rest).map (fun p => -(p.1 : Int))
  | rest => (parseDigitsUCount rest).map (fun p => (p.1 : Int))

/-- Unsigned float literal: mantissa with optional exponent.  Returns
numerator and (positive) denominator of the exact denoted value, the
exponent folded in by powers of ten. -/
def pyFloatMag (cs : List Char) : Option (Nat × Nat) :=
  match splitAtExp cs with
  | none => (parseMantissa cs).map (fun m => (m.1, 10 ^ m.2))
  | some (me, e) => do
      let m ← parseMantissa me
      let ex ← parseExp e
      if ex < 0 then some (m.1, 10 ^ m.2 * 10 ^ ex.natAbs)
      else some (m.1 * 10 ^ ex.natAbs, 10 ^ m.2)

/-- Python `float(str)` on decimal literals: strip whitespace, optional
sign, mantissa, optional exponent; the result is the exact rational the
text denotes.  `none` models `ValueError`.  (The `inf`/`nan` forms
contain no `.` and therefore never reach the float branch of the
decoder; they are not modelled, and neither are binary rounding and
overflow of the IEEE double.) -/
def pyFloat (s : String) : Option ℚ :=
  match pyStripL s.toList with
  | '+' :: rest => (pyFloatMag rest).map (fun p => mkRat p.1 p.2)
  | '-' :: rest => (pyFloatMag rest).map (fun p => mkRat (-(p.1 : Int)) p.2)
  | rest => (pyFloatMag rest).map (fun p => mkRat p.1 p.2)

mutual
/-- Result of `json.dumps` on the wire-format dict of one attribute
value occurring in nested position (an element of an `L` payload or an
entry value of an `M` payload), with `default=decimal_default`: the
single-key dict `\x7b"<tag>": <payload>\x7d` is rendered in full, so a
nested `List`/`Map` keeps its `"L"`/`"M"` tag wrapper.
`decimal_default` raises `TypeError` for anything that is not a
`Decimal`; `bytes` payloads (tag `B`, and the elements of a non-empty
`BS`) are not JSON serializable and therefore make the whole dump
raise, which `Except.error` models.  Number payloads are strings in the
wire format and are dumped verbatim (escaped), never converted through
`float`. -/
def jsonDumpVal : AttrValue → Except Unit String
  | .S s => .ok ("\x7b\"S\": " ++ jsonQ s ++ "\x7d")
  | .N s => .ok ("\x7b\"N\": " ++ jsonQ s ++ "\x7d")
  | .B _ => .error ()
  | .BOOL b => .ok ("\x7b\"BOOL\": " ++ (if b then "true" else "false") ++ "\x7d")
  | .NULL b => .ok ("\x7b\"NULL\": " ++ (if b then "true" else "false") ++ "\x7d")
  | .SS l => .ok ("\x7b\"SS\": " ++ jsonQList l ++ "\x7d")
  | .NS l => .ok ("\x7b\"NS\": " ++ jsonQList l ++ "\x7d")
  | .BS l => if l.isEmpty then .ok "\x7b\"BS\": []\x7d" else .error ()
  | .L l => do
      let s ← jsonDumpElems l
      .ok ("\x7b\"L\": [" ++ s ++ "]\x7d")
  | .M m => do
      let s ← jsonDumpEntries m
      .ok ("\x7b\"M\": \x7b" ++ s ++ "\x7d\x7d")
/-- JSON dump of the elements of a wire-format list, comma-space
separated. -/
def jsonDumpElems : List AttrValue → Except Unit String
  | [] => .ok ""
  | [v] => jsonDumpVal v
  | v :: rest => do
      let s ← jsonDumpVal v
      let t ← jsonDumpElems rest
      .ok (s ++ ", " ++ t)
/-- JSON dump of the entries of a wire-format map, in insertion order. -/
def jsonDumpEntries : List (String × AttrValue) → Except Unit String
  | [] => .ok ""
  | [kv] => do
      let s ← jsonDumpVal kv.2
      .ok (jsonQ kv.1 ++ ": " ++ s)
  | kv :: rest => do
      let s ← jsonDumpVal kv.2
      let t ← jsonDumpEntries rest
      .ok (jsonQ kv.1 ++ ": " ++ s ++ ", " ++ t)
end

/-- Decoding of one attribute value, following the tag dispatch of
`convert_dynamodb_item_to_dict`: `S` verbatim, `N` parsed as int
(no `.`) or float (with `.`) falling back to the raw text on
`ValueError`, `B` via `str()`, `BOOL`/`NULL` passed through, the set
tags joined with `", "`, `L`/`M` serialized by `json.dumps` applied to
the BARE payload (`json.dumps(value['L'])` / `json.dumps(value['M'])`,
so the top level has no tag wrapper while every nested value is a full
wire dict — see `jsonDumpVal`; the dump can raise on nested bytes), and
any unrecognized tag stringified (unrepresentable here since
`AttrValue` has exactly the ten known tags). -/
def decodeValue : AttrValue → Except Unit Flat
  | .S s => .ok (.str s)
  | .N s =>
      if s.toList.contains '.' then
        match pyFloat s with
        | some q => .ok (.float q)
        | none => .ok (.str s)
      else
        match pyInt s with
        | some n => .ok (.int n)
        | none => .ok (.str s)
  | .B b => .ok (.str (pyBytesRepr b))
  | .BOOL b => .ok (.bool b)
  | .NULL _ => .ok .null
  | .SS l => .ok (.str (String.intercalate ", " l))
  | .NS l => .ok (.str (String.intercalate ", " l))
  | .BS l => .ok (.str (String.intercalate ", " (l.map pyBytesRepr)))
  | .L l => (jsonDumpElems l).map (fun s => Flat.str ("[" ++ s ++ "]"))
  | .M m => (jsonDumpEntries m).map (fun s => Flat.str ("\x7b" ++ s ++ "\x7d"))

/-- Decoding of a whole raw item (`convert_dynamodb_item_to_dict`):
each attribute is decoded in iteration order; an exception from any
value aborts the whole conversion. -/
def convert_dynamodb_item_to_dict : RawItem → Except Unit (List (String × Flat))
  | [] => .ok []
  | kv :: rest => do
      let f ← decodeValue kv.2
      let r ← convert_dynamodb_item_to_dict rest
      .ok ((kv.1, f) :: r)

example : decodeValue (.N "42") = .ok (.int 42) := rfl
example : decodeValue (.N "42.5") = .ok (.float (mkRat 425 10)) := rfl
example : (mkRat 425 10 : ℚ) = 85 / 2 := by norm_num [mkRat, Rat.normalize]
example : decodeValue (.N "abc") = .ok (.str "abc") := rfl
example : decodeValue (.N " -3 ") = .ok (.int (-3)) := rfl
example : decodeValue (.N "1.5e2") = .ok (.float (mkRat 1500 10)) := rfl
example : decodeValue (.N "1.5e-1") = .ok (.float (mkRat 15 100)) := rfl
example : decodeValue (.N ".") = .ok (.str ".") := rfl
example : decodeValue (.L [.N "1", .S "x"]) =
    .ok (.str "[\x7b\"N\": \"1\"\x7d, \x7b\"S\": \"x\"\x7d]") := rfl
example : decodeValue (.L [.L [.N "2"]]) =
    .ok (.str "[\x7b\"L\": [\x7b\"N\": \"2\"\x7d]\x7d]") := rfl
example : decodeValue (.M [("a", .M [("b", .S "x")])]) =
    .ok (.str "\x7b\"a\": \x7b\"M\": \x7b\"b\": \x7b\"S\": \"x\"\x7d\x7d\x7d\x7d") := rfl
example : decodeValue (.M [("a", .L [.BOOL true]), ("n", .N "7")]) =
    .ok (.str "\x7b\"a\": \x7b\"L\": [\x7b\"BOOL\": true\x7d]\x7d, \"n\": \x7b\"N\": \"7\"\x7d\x7d") := rfl
example : decodeValue (.M [("k", .B [97])]) = .error () := rfl
example : decodeValue (.L [.M [("k", .BS [[1]])]]) = .error () := rfl
example : convert_dynamodb_item_to_dict [("x", .L [.B [0]])] = .error () := rfl
example : pyBytesRepr [97, 0, 39] = "b\"a\\x00'\"" := by decide
example : pyStrAttr (.SS ["a", "b"]) = "\x7b'SS': ['a', 'b']\x7d" := by decide

/-- Character-class membership for glob brackets: `a-b` ranges, other
characters literal (a leading or trailing `-` is literal). -/
def charInClass (c : Char) : List Char → Bool
  | [] => false
  | a :: '-' :: b :: rest => (decide (a ≤ c) && decide (c ≤ b)) || charInClass c rest
  | a :: rest => (a == c) || charInClass c rest

/-- Scan for the closing `]` of a glob character class, returning the
class body and the remainder of the pattern. -/
def findClose : List Char → Option (List Char × List Char)
  | [] => none
  | c :: rest =>
      if c = ']' then some ([], rest)
      else (findClose rest).map (fun p => (c :: p.1, p.2))

/-- Parse a glob character class after the opening `[`: optional `!`
negation, a `]` directly after `[` or `[!` is a literal member, then
everything up to the closing `]`.  `none` when the class never closes
(the `[` is then a literal character, as in `fnmatch.translate`). -/
def parseClass (ps : List Char) : Option (Bool × List Char × List Char) :=
  match ps with
  | '!' :: ']' :: rest2 => (findClose rest2).map (fun p => (true, ']' :: p.1, p.2))
  | '!' :: rest => (findClose rest).map (fun p => (true, p.1, p.2))
  | ']' :: rest2 => (findClose rest2).map (fun p => (false, ']' :: p.1, p.2))
  | other => (findClose other).map (fun p => (false, p.1, p.2))

/-- Anchored glob matching of `fnmatch.fnmatchcase` (`*` any run, `?`
any one character, `[...]`/`[!...]` classes; posix `normcase` is the
identity, so matching is case-sensitive).  The first argument is a
recursion counter; every recursive call shortens pattern plus text, so
a counter of `pattern length + text length + 1` is never exhausted. -/
def globMatchF : Nat → List Char → List Char → Bool
  | 0, _, _ => false
  | _ + 1, [], [] => true
  | _ + 1, [], _ :: _ => false
  | fuel + 1, '*' :: ps, [] => globMatchF fuel ps []
  | fuel + 1, '*' :: ps, c :: s2 =>
      globMatchF fuel ps (c :: s2) || globMatchF fuel ('*' :: ps) s2
  | _ + 1, '?' :: _, [] => false
  | fuel + 1, '?' :: ps, _ :: s2 => globMatchF fuel ps s2
  | fuel + 1, '[' :: ps, s =>
      (match parseClass ps with
       | none =>
           match s with
           | '[' :: s2 => globMatchF fuel ps s2
           | _ => false
       | some (neg, cls, rest) =>
           match s with
           | [] => false
           | c :: s2 => (charInClass c cls != neg) && globMatchF fuel rest s2)
  | _ + 1, _ :: _, [] => false
  | fuel + 1, p :: ps, c :: s2 => (p == c) && globMatchF fuel ps s2

/-- Python `fnmatch.fnmatch(name, pattern)` (posix, hence
case-sensitive `fnmatchcase`). -/
def fnmatch (nm pat : String) : Bool :=
  globMatchF (pat.toList.length + nm.toList.length + 1) pat.toList nm.toList

/-- Projection of a present attribute value to its comparison text in
`apply_filters`: `S` its text, `N` its raw text, `BOOL` via `str()`,
`NULL` empty text, anything else `str()` of the wire dict. -/
def projAttr : AttrValue → String
  | .S s => s
  | .N s => s
  | .BOOL b => pyBool b
  | .NULL _ => ""
  | v => pyStrAttr v

/-- One clause of the loop body of `apply_filters`, for filter key `fk`
and filter value `fv`: returns whether the item passes the clause.
`fv` empty (or the literal two-character `""`) is the is-empty clause;
`fv` beginning with `!=` is the not-equals clause (is-not-empty when
the remainder is empty); anything else is the equals/wildcard clause. -/
def clausePasses (item : RawItem) (fk fv : String) : Bool :=
  if fv = "" ∨ fv = "\"\"" then
    match lookupAttr item fk with
    | none => true
    | some (.NULL b) => b
    | some (.S s) => s == ""
    | some _ => false
  else
    match fv.toList with
    | '!' :: '=' :: targetCs =>
        let target := String.mk targetCs
        (match lookupAttr item fk with
         | none => target != ""
         | some v => projAttr v != target)
    | _ =>
        match lookupAttr item fk with
        | none => false
        | some v =>
            if fv.toList.contains '*' then fnmatch (projAttr v) fv
            else projAttr v == fv

/-- An item survives the clause set iff every clause passes. -/
def itemMatches (filters : List (String × String)) (item : RawItem) : Bool :=
  filters.all (fun f => clausePasses item f.1 f.2)

/-- The `apply_filters` function: an empty filter set returns the items
unchanged, otherwise only items passing every clause survive. -/
def apply_filters (items : List RawItem) (filters : List (String × String)) : List RawItem :=
  if filters.isEmpty then items
  else items.filter (fun it => itemMatches filters it)

/-- Parse of one operator filter line in `prompt_for_filters`: lines
without `=` are rejected, otherwise the line is split at the first `=`
and both halves are stripped.  (This is the pure core of the
interactive loop, per the design note of the specification.) -/
def parse_filter_line (line : String) : Option (String × String) :=
  match splitAtChar '=' line.toList with
  | none => none
  | some (k, v) => some (String.mk (pyStripL k), String.mk (pyStripL v))

/-- Candidate aliases for an explicit entity-type attribute. -/
def typeKeys : List String := ["EntityType", "entity_type", "type", "Type"]

/-- Candidate aliases for the sort-key attribute. -/
def skKeys : List String := ["sortKey", "SK", "sk", "sort_key"]

/-- Candidate aliases for the partition-key attribute. -/
def pkKeys : List String := ["partitionKey", "PK", "pk", "partition_key"]

/-- Python `str.split(c)` on the character-list level (always returns
at least one, possibly empty, segment). -/
def splitOnChar (c : Char) : List Char → List (List Char)
  | [] => [[]]
  | x :: xs =>
      if x = c then [] :: splitOnChar c xs
      else
        match splitOnChar c xs with
        | [] => [[x]]
        | y :: ys => (x :: y) :: ys

/-- Sort-key labels contributed by one present String-typed sort-key
alias with value `v`: the prefix before the first `#` when one occurs,
else the whole (non-empty) value. -/
def skLabel (v : String) : List String :=
  if v.toList.contains '#' then
    ["SK prefix: " ++ String.mk (splitOnChar '#' v.toList).headI]
  else if v ≠ "" then ["SK: " ++ v]
  else []

/-- Partition-key labels contributed by one present String-typed
partition-key alias with value `v`: one label for every `#`-separated
segment that is non-empty and not purely numeric. -/
def pkLabels (v : String) : List String :=
  if v.toList.contains '#' then
    ((splitOnChar '#' v.toList).filter
        (fun part => !part.isEmpty && !(part.all Char.isDigit))).map
      (fun part => "PK contains: " ++ String.mk part)
  else []

/-- Labels contributed by one candidate key group: the loop in
`detect_entity_types` visits EVERY alias in the list and appends the
labels of each alias that is present with a String-typed value. -/
def groupLabels (item : RawItem) (f : String → List String) : List String → List String
  | [] => []
  | k :: ks =>
      (match lookupAttr item k with
       | some (.S v) => f v
       | _ => []) ++ groupLabels item f ks

/-- All pattern labels of one item, `"unknown"` when no group
contributed any. -/
def itemPatterns (item : RawItem) : List String :=
  let ps := groupLabels item (fun v => ["EntityType: " ++ v]) typeKeys ++
            groupLabels item skLabel skKeys ++
            groupLabels item pkLabels pkKeys
  if ps.isEmpty then ["unknown"] else ps

/-- Increment of one label count (`entity_patterns[pattern] += 1` on a
`defaultdict(int)`). -/
def bumpCount (counts : String → Nat) (p : String) : String → Nat :=
  fun l => if l = p then counts p + 1 else counts l

/-- The `detect_entity_types` function: label counts over the first
`sample_size` items. -/
def detect_entity_types (items : List RawItem) (sample_size : Nat) : String → Nat :=
  if items.isEmpty then fun _ => 0
  else
    (items.take sample_size).foldl
      (fun counts item => (itemPatterns item).foldl bumpCount counts)
      (fun _ => 0)

/-- Per-attribute aggregate of `analyze_table_schema`: occurrence
count, retained sample of String values, observed type names.  The two
Python sets are modelled as duplicate-free lists in insertion order. -/
structure AttrProfile where
  count : Nat
  sample_values : List String
  data_types : List String

/-- Default entry of the stats `defaultdict`. -/
def emptyProfile : AttrProfile := ⟨0, [], []⟩

/-- Insertion into a Python set modelled as a duplicate-free list. -/
def setAdd (x : String) (l : List String) : List String :=
  if x ∈ l then l else l ++ [x]

/-- Profile update for one observed value of an attribute: the count
always increments; the type tag is recorded for the eight tracked tags
(`B`/`BS` are not tracked); a String value is additionally sampled
while fewer than 10 sample values are retained. -/
def profileValue (p : AttrProfile) (v : AttrValue) : AttrProfile :=
  let p1 : AttrProfile := { p with count := p.count + 1 }
  match v with
  | .S s =>
      { p1 with data_types := setAdd "String" p1.data_types,
                sample_values :=
                  if p1.sample_values.length < 10 then setAdd s p1.sample_values
                  else p1.sample_values }
  | .N _ => { p1 with data_types := setAdd "Number" p1.data_types }
  | .BOOL _ => { p1 with data_types := setAdd "Boolean" p1.data_types }
  | .NULL _ => { p1 with data_types := setAdd "Null" p1.data_types }
  | .SS _ => { p1 with data_types := setAdd "String Set" p1.data_types }
  | .NS _ => { p1 with data_types := setAdd "Number Set" p1.data_types }
  | .L _ => { p1 with data_types := setAdd "List" p1.data_types }
  | .M _ => { p1 with data_types := setAdd "Map" p1.data_types }
  | .B _ => p1
  | .BS _ => p1

/-- Pointwise update of the stats mapping at one attribute name. -/
def updateStats (st : String → AttrProfile) (k : String) (v : AttrValue) :
    String → AttrProfile :=
  fun k2 => if k2 = k then profileValue (st k) v else st k2

/-- The `analyze_table_schema` function: per-attribute profiles over
the first `sample_size` items. -/
def analyze_table_schema (items : List RawItem) (sample_size : Nat) :
    String → AttrProfile :=
  if items.isEmpty then fun _ => emptyProfile
  else
    (items.take sample_size).foldl
      (fun st item => item.foldl (fun st2 kv => updateStats st2 kv.1 kv.2) st)
      (fun _ => emptyProfile)

example : parse_filter_line "status!=ACTIVE" = some ("status!", "ACTIVE") := by decide
example : parse_filter_line "deletedAt!=" = some ("deletedAt!", "") := by decide
example : parse_filter_line "nofilter" = none := by decide
example : parse_filter_line " a = b=c " = some ("a", "b=c") := by decide
example : clausePasses [("name", .S "alice")] "name" "al*" = true := by decide
example : clausePasses [("name", .S "bob")] "name" "al*" = false := by decide
example : clausePasses [("a", .N "")] "a" "" = false := by decide
example : clausePasses [("a", .N "")] "a" "!=" = false := by decide
example : clausePasses [("a", .NULL true)] "a" "" = true := by decide
example : clausePasses [] "a" "" = true := by decide
example : clausePasses [("status", .S "DELETED")] "status" "!=ACTIVE" = true := by decide
example : apply_filters [[("status", .S "DELETED")]] [("status!", "ACTIVE")] = [] := rfl
example : itemPatterns [("SK", .S "A#1"), ("sk", .S "B#2")] =
    ["SK prefix: A", "SK prefix: B"] := by decide
example : itemPatterns [] = ["unknown"] := by decide
example : detect_entity_types [[("SK", .S "A#1"), ("sk", .S "B#2")]] 100 "SK prefix: B" = 1 := by
  decide
example : detect_entity_types
    [[("PK", .S "USER#1"), ("SK", .S "PROFILE#1"), ("age", .N "30")],
     [("PK", .S "USER#2"), ("SK", .S "ORDER#9"), ("age", .N "41")]] 100 "PK contains: USER" = 2 := by
  decide
example : ((analyze_table_schema [[("a", .S "x")], [("a", .S "y")]] 100) "a").count = 2 := by decide
example : ((analyze_table_schema [[("a", .S "x")], [("a", .S "x")]] 100) "a").sample_values =
    ["x"] := by decide

mutual
/-- Whether `json.dumps` succeeds on the wire-format encoding of a
value: it fails exactly on a `bytes` payload, i.e. on tag `B` and on a
non-empty `BS`, anywhere in the tree. -/
def jsonSafe : AttrValue → Bool
  | .B _ => false
  | .BS l => l.isEmpty
  | .L l => jsonSafeElems l
  | .M m => jsonSafeEntries m
  | _ => true
/-- Serializability of every element of a wire-format list. -/
def jsonSafeElems : List AttrValue → Bool
  | [] => true
  | v :: rest => jsonSafe v && jsonSafeElems rest
/-- Serializability of every entry value of a wire-format map. -/
def jsonSafeEntries : List (String × AttrValue) → Bool
  | [] => true
  | kv :: rest => jsonSafe kv.2 && jsonSafeEntries rest
end

mutual
/-- All number payload texts occurring in a wire-format value (tag `N`
payloads and `NS` elements, recursively through `L` and `M`). -/
def numTexts : AttrValue → List String
  | .N s => [s]
  | .NS l => l
  | .L l => numTextsElems l
  | .M m => numTextsEntries m
  | _ => []
/-- Number payload texts of the elements of a wire-format list. -/
def numTextsElems : List AttrValue → List String
  | [] => []
  | v :: rest => numTexts v ++ numTextsElems rest
/-- Number payload texts of the entries of a wire-format map. -/
def numTextsEntries : List (String × AttrValue) → List String
  | [] => []
  | kv :: rest => numTexts kv.2 ++ numTextsEntries rest
end

/-- Occurrence inside an enclosing context is preserved by gluing text
on both sides. -/
theorem wrapWithin {x y : List Char} (a b : List Char) (h : x <:+: y) :
    x <:+: a ++ (y ++ b) := by
  have h2 := h.trans ( List.infix_append a y b)
  simpa [List.append_assoc] using h2

/-- Escaped text occurs inside its JSON string literal. -/
theorem escape_in_jsonQ (s : String) : (jsonEscape s).toList <:+: (jsonQ s).toList := by
  refine ⟨"\"".toList, "\"".toList, ?_⟩
  simp [jsonQ]

/-- Escaped member text occurs inside the JSON rendering of a string
list. -/
theorem escape_in_jsonQElems {s : String} :
    ∀ l : List String, s ∈ l → (jsonEscape s).toList <:+: (jsonQElems l).toList := by
  intro l
  induction l with
  | nil => intro h; simp at h
  | cons x rest ih =>
      intro h
      rcases List.mem_cons.1 h with rfl | h2
      · cases rest with
        | nil => simpa [jsonQElems] using escape_in_jsonQ s
        | cons y t =>
            have h3 := wrapWithin [] ((", " ++ jsonQElems (y :: t)).toList)
              (escape_in_jsonQ s)
            simpa [jsonQElems, List.append_assoc] using h3
      · cases rest with
        | nil => simp at h2
        | cons y t =>
            have h3 := wrapWithin ((jsonQ x ++ ", ").toList) [] (ih h2)
            simpa [jsonQElems, List.append_assoc] using h3

/-- Escaped member text occurs inside the JSON rendering of a string
list with its brackets. -/
theorem escape_in_jsonQList {s : String} {l : List String} (h : s ∈ l) :
    (jsonEscape s).toList <:+: (jsonQList l).toList := by
  have h2 := wrapWithin "[".toList "]".toList (escape_in_jsonQElems l h)
  simpa [jsonQList, List.append_assoc] using h2

mutual
/-- On a serializable value the JSON dump succeeds and every nested
number payload occurs (escaped) verbatim inside the output text. -/
theorem jsonDumpVal_ok : ∀ v, jsonSafe v = true →
    ∃ out, jsonDumpVal v = .ok out ∧
      ∀ s ∈ numTexts v, (jsonEscape s).toList <:+: out.toList
  | .S s, _ => ⟨_, rfl, by simp [numTexts]⟩
  | .N s, _ => ⟨_, rfl, by
      intro t ht
      have he : t = s := by simpa [numTexts] using ht
      subst he
      have h2 := wrapWithin "\x7b\"N\": ".toList "\x7d".toList (escape_in_jsonQ t)
      simpa [List.append_assoc] using h2⟩
  | .B _, h => by simp [jsonSafe] at h
  | .BOOL b, _ => ⟨_, rfl, by simp [numTexts]⟩
  | .NULL b, _ => ⟨_, rfl, by simp [numTexts]⟩
  | .SS l, _ => ⟨_, rfl, by simp [numTexts]⟩
  | .NS l, _ => ⟨_, rfl, by
      intro t ht
      have h2 := wrapWithin "\x7b\"NS\": ".toList "\x7d".toList
        (escape_in_jsonQList (show t ∈ l by simpa [numTexts] using ht))
      simpa [List.append_assoc] using h2⟩
  | .BS l, h => by
      have hl : l.isEmpty = true := by simpa [jsonSafe] using h
      exact ⟨"\x7b\"BS\": []\x7d", by simp [jsonDumpVal, hl], by simp [numTexts]⟩
  | .L l, h => by
      obtain ⟨out, hok, hin⟩ := jsonDumpElems_ok l (by simpa [jsonSafe] using h)
      refine ⟨"\x7b\"L\": [" ++ out ++ "]\x7d", ?_, ?_⟩
      · simp [jsonDumpVal, hok, Bind.bind, Except.bind]
      · intro t ht
        have h2 := wrapWithin "\x7b\"L\": [".toList "]\x7d".toList
          (hin t (by simpa [numTexts] using ht))
        simpa [List.append_assoc] using h2
  | .M m, h => by
      obtain ⟨out, hok, hin⟩ := jsonDumpEntries_ok m (by simpa [jsonSafe] using h)
      refine ⟨"\x7b\"M\": \x7b" ++ out ++ "\x7d\x7d", ?_, ?_⟩
      · simp [jsonDumpVal, hok, Bind.bind, Except.bind]
      · intro t ht
        have h2 := wrapWithin "\x7b\"M\": \x7b".toList "\x7d\x7d".toList
          (hin t (by simpa [numTexts] using ht))
        simpa [List.append_assoc] using h2

/-- List version of `jsonDumpVal_ok`. -/
theorem jsonDumpElems_ok : ∀ l, jsonSafeElems l = true →
    ∃ out, jsonDumpElems l = .ok out ∧
      ∀ s ∈ numTextsElems l, (jsonEscape s).toList <:+: out.toList
  | [], _ => ⟨"", rfl, by simp [numTextsElems]⟩
  | [v], h => by
      obtain ⟨out, hok, hin⟩ := jsonDumpVal_ok v (by simpa [jsonSafeElems] using h)
      refine ⟨out, by simpa [jsonDumpElems] using hok, ?_⟩
      intro t ht
      exact hin t (by simpa [numTextsElems] using ht)
  | v :: v2 :: rest, h => by
      have h2 : jsonSafe v = true ∧ jsonSafeElems (v2 :: rest) = true := by
        simpa [jsonSafeElems, Bool.and_eq_true] using h
      obtain ⟨s1, hok1, hin1⟩ := jsonDumpVal_ok v h2.1
      obtain ⟨s2, hok2, hin2⟩ := jsonDumpElems_ok (v2 :: rest) h2.2
      refine ⟨s1 ++ ", " ++ s2, ?_, ?_⟩
      · simp [jsonDumpElems, hok1, hok2, Bind.bind, Except.bind]
      · intro t ht
        rcases List.mem_append.1 (show t ∈ numTexts v ++ numTextsElems (v2 :: rest) from ht)
          with h3 | h3
        · have h4 := wrapWithin [] ((", " ++ s2).toList) (hin1 t h3)
          simpa [List.append_assoc] using h4
        · have h4 := wrapWithin ((s1 ++ ", ").toList) [] (hin2 t h3)
          simpa [List.append_assoc] using h4

/-- Map-entry version of `jsonDumpVal_ok`. -/
theorem jsonDumpEntries_ok : ∀ m, jsonSafeEntries m = true →
    ∃ out, jsonDumpEntries m = .ok out ∧
      ∀ s ∈ numTextsEntries m, (jsonEscape s).toList <:+: out.toList
  | [], _ => ⟨"", rfl, by simp [numTextsEntries]⟩
  | [kv], h => by
      obtain ⟨out, hok, hin⟩ := jsonDumpVal_ok kv.2 (by simpa [jsonSafeEntries] using h)
      refine ⟨jsonQ kv.1 ++ ": " ++ out, ?_, ?_⟩
      · simp [jsonDumpEntries, hok, Bind.bind, Except.bind]
      · intro t ht
        have h4 := wrapWithin ((jsonQ kv.1 ++ ": ").toList) []
          (hin t (by simpa [numTextsEntries] using ht))
        simpa [List.append_assoc] using h4
  | kv :: kv2 :: rest, h => by
      have h2 : jsonSafe kv.2 = true ∧ jsonSafeEntries (kv2 :: rest) = true := by
        simpa [jsonSafeEntries, Bool.and_eq_true] using h
      obtain ⟨s1, hok1, hin1⟩ := jsonDumpVal_ok kv.2 h2.1
      obtain ⟨s2, hok2, hin2⟩ := jsonDumpEntries_ok (kv2 :: rest) h2.2
      refine ⟨jsonQ kv.1 ++ ": " ++ s1 ++ ", " ++ s2, ?_, ?_⟩
      · simp [jsonDumpEntries, hok1, hok2, Bind.bind, Except.bind]
      · intro t ht
        rcases List.mem_append.1 (show t ∈ numTexts kv.2 ++ numTextsEntries (kv2 :: rest) from ht)
          with h3 | h3
        · have h4 := wrapWithin ((jsonQ kv.1 ++ ": ").toList) ((", " ++ s2).toList)
            (hin1 t h3)
          simpa [List.append_assoc] using h4
        · have h4 := wrapWithin ((jsonQ kv.1 ++ ": " ++ s1 ++ ", ").toList) []
            (hin2 t h3)
          simpa [List.append_assoc] using h4
end

/-- Whether decoding one attribute value raises: only a `List`- or
`Map`-tagged value can raise, and only when `json.dumps` fails on its
nested contents (a nested `bytes` payload). -/
def decodableValue : AttrValue → Bool
  | .L l => jsonSafeElems l
  | .M m => jsonSafeEntries m
  | _ => true

/-- Decoding of one attribute value succeeds whenever no nested bytes
payload blocks the JSON dump of a composite. -/
theorem decodeValue_ok (v : AttrValue) (h : decodableValue v = true) :
    ∃ f, decodeValue v = .ok f := by
  cases v with
  | S s => exact ⟨_, rfl⟩
  | N s =>
      simp only [decodeValue]
      split
      · rcases hp : pyFloat s with _ | q
        · exact ⟨.str s, by simp [hp]⟩
        · exact ⟨.float q, by simp [hp]⟩
      · rcases hp : pyInt s with _ | n
        · exact ⟨.str s, by simp [hp]⟩
        · exact ⟨.int n, by simp [hp]⟩
  | B b => exact ⟨_, rfl⟩
  | BOOL b => exact ⟨_, rfl⟩
  | NULL b => exact ⟨_, rfl⟩
  | SS l => exact ⟨_, rfl⟩
  | NS l => exact ⟨_, rfl⟩
  | BS l => exact ⟨_, rfl⟩
  | L l =>
      obtain ⟨out, hok, _⟩ := jsonDumpElems_ok l (by simpa [decodableValue] using h)
      exact ⟨.str ("[" ++ out ++ "]"), by
        simp [decodeValue, jsonDumpVal, hok, Bind.bind, Except.bind, Except.map]⟩
  | M m =>
      obtain ⟨out, hok, _⟩ := jsonDumpEntries_ok m (by simpa [decodableValue] using h)
      exact ⟨.str ("\x7b" ++ out ++ "\x7d"), by
        simp [decodeValue, jsonDumpVal, hok, Bind.bind, Except.bind, Except.map]⟩

/-- C1 (counterexample): decoding is NOT total on all single-tag values
with arbitrary nested contents — a `List` value containing a `Binary`
payload makes `json.dumps` call `decimal_default` on a `bytes` object,
which raises `TypeError`, so `convert_dynamodb_item_to_dict` raises. -/
theorem C1_counterexample :
    convert_dynamodb_item_to_dict [("x", .L [.B [0]])] = .error () := rfl

/-- C1 (amended): decoding via `convert_dynamodb_item_to_dict` is a
pure total function — it never raises — for every raw item in which no
`List`- or `Map`-tagged value contains a nested `Binary` payload (or
non-empty `BinarySet`); determinism holds definitionally since the
decoder is a pure function of the item. -/
theorem C1_theorem : ∀ item : RawItem,
    item.all (fun kv => decodableValue kv.2) = true →
    ∃ rows, convert_dynamodb_item_to_dict item = .ok rows := by
  intro item
  induction item with
  | nil => exact fun _ => ⟨[], rfl⟩
  | cons kv rest ih =>
      intro h
      rw [List.all_cons, Bool.and_eq_true] at h
      obtain ⟨f, hf⟩ := decodeValue_ok kv.2 h.1
      obtain ⟨r, hr⟩ := ih h.2
      exact ⟨(kv.1, f) :: r, by
        simp [convert_dynamodb_item_to_dict, hf, hr, Bind.bind, Except.bind]⟩

/-- C1 (witness): a concrete item with a nested-binary-free `List`
value and a top-level `Binary` value decodes without raising. -/
theorem C1_witness :
    ([("a", AttrValue.L [AttrValue.N "1", AttrValue.S "x"]),
      ("b", AttrValue.B [7])].all (fun kv => decodableValue kv.2)) = true ∧
    ∃ rows, convert_dynamodb_item_to_dict
      [("a", AttrValue.L [AttrValue.N "1", AttrValue.S "x"]),
       ("b", AttrValue.B [7])] = .ok rows :=
  ⟨by decide, C1_theorem _ (by decide)⟩

/-- C6: the Number branch of the decoder parses the payload as an
integer when it contains no `.`, as a float when it does, and returns
the raw text unchanged on parse failure; `"42"` decodes to integer 42,
`"42.5"` to float 42.5, `"abc"` to the string `"abc"`. -/
theorem C6_theorem :
    (∀ (s : String) (n : Int), s.toList.contains '.' = false → pyInt s = some n →
      decodeValue (.N s) = .ok (.int n)) ∧
    (∀ (s : String) (q : ℚ), s.toList.contains '.' = true → pyFloat s = some q →
      decodeValue (.N s) = .ok (.float q)) ∧
    (∀ s : String, s.toList.contains '.' = false → pyInt s = none →
      decodeValue (.N s) = .ok (.str s)) ∧
    (∀ s : String, s.toList.contains '.' = true → pyFloat s = none →
      decodeValue (.N s) = .ok (.str s)) ∧
    decodeValue (.N "42") = .ok (.int 42) ∧
    decodeValue (.N "42.5") = .ok (.float (85 / 2)) ∧
    decodeValue (.N "abc") = .ok (.str "abc") := by
  refine ⟨?_, ?_, ?_, ?_, rfl, ?_, rfl⟩
  · intro s n hc hp
    simp [decodeValue, hc, hp]
    intro hmem
    simp_all
  · intro s q hc hp
    simp [decodeValue, hc, hp]
    intro hmem
    simp_all
  · intro s hc hp
    simp [decodeValue, hc, hp]
    intro hmem
    simp_all
  · intro s hc hp
    simp [decodeValue, hc, hp]
    intro hmem
    simp_all
  · have h1 : decodeValue (.N "42.5") = .ok (.float (mkRat 425 10)) := rfl
    have h2 : (mkRat 425 10 : ℚ) = 85 / 2 := by norm_num [mkRat, Rat.normalize]
    rw [h2] at h1
    exact h1

/-- C6 (witness): the integer branch applied at the payload `"7"`. -/
theorem C6_witness :
    ("7".toList.contains '.') = false ∧ pyInt "7" = some 7 ∧
    decodeValue (.N "7") = .ok (.int 7) :=
  ⟨by decide, by decide, C6_theorem.1 "7" 7 (by decide) (by decide)⟩

/-- C7 (counterexample): a `Map`-tagged value containing a `Binary`
payload is NOT serialized to a string — decoding raises (`TypeError`
out of `json.dumps`/`decimal_default`). -/
theorem C7_counterexample :
    decodeValue (AttrValue.M [("k", AttrValue.B [0])]) = .error () := rfl

/-- C7 (amended): every `List`- or `Map`-tagged value whose nested
contents contain no `Binary` payload (nor non-empty `BinarySet`) is
decoded to a single canonical serialized string, in which every nested
number payload occurs verbatim (JSON-escaped) as literal text — numbers
are never converted through `float`, hence not lossily rounded. -/
theorem C7_theorem : ∀ (l : List AttrValue) (m : List (String × AttrValue)),
    (jsonSafeElems l = true →
      ∃ out, decodeValue (.L l) = .ok (.str out) ∧
        ∀ s ∈ numTextsElems l, (jsonEscape s).toList <:+: out.toList) ∧
    (jsonSafeEntries m = true →
      ∃ out, decodeValue (.M m) = .ok (.str out) ∧
        ∀ s ∈ numTextsEntries m, (jsonEscape s).toList <:+: out.toList) := by
  intro l m
  constructor
  · intro h
    obtain ⟨out, hok, hin⟩ := jsonDumpElems_ok l h
    refine ⟨"[" ++ out ++ "]", ?_, ?_⟩
    · simp [decodeValue, jsonDumpVal, hok, Bind.bind, Except.bind, Except.map]
    · intro s hs
      have h2 := wrapWithin "[".toList "]".toList (hin s hs)
      simpa [List.append_assoc] using h2
  · intro h
    obtain ⟨out, hok, hin⟩ := jsonDumpEntries_ok m h
    refine ⟨"\x7b" ++ out ++ "\x7d", ?_, ?_⟩
    · simp [decodeValue, jsonDumpVal, hok, Bind.bind, Except.bind, Except.map]
    · intro s hs
      have h2 := wrapWithin "\x7b".toList "\x7d".toList (hin s hs)
      simpa [List.append_assoc] using h2

/-- C7 (witness): a concrete binary-free list serializes and the
number text occurs in the output. -/
theorem C7_witness :
    jsonSafeElems [AttrValue.N "42.5"] = true ∧
    ∃ out, decodeValue (.L [AttrValue.N "42.5"]) = .ok (.str out) ∧
      ∀ s ∈ numTextsElems [AttrValue.N "42.5"],
        (jsonEscape s).toList <:+: out.toList :=
  ⟨by decide, (C7_theorem [AttrValue.N "42.5"] []).1 (by decide)⟩

/-- C10: whenever decoding succeeds, the decoded row has exactly the
attribute names of the input item, in order — none dropped, none
added. -/
theorem C10_theorem : ∀ (item : RawItem) (rows : List (String × Flat)),
    convert_dynamodb_item_to_dict item = .ok rows →
    rows.map Prod.fst = item.map Prod.fst := by
  intro item
  induction item with
  | nil =>
      intro rows h
      simp only [convert_dynamodb_item_to_dict] at h
      cases h
      simp
  | cons kv rest ih =>
      intro rows h
      simp only [convert_dynamodb_item_to_dict] at h
      rcases hf : decodeValue kv.2 with e | f
      · rw [hf] at h
        simp [Bind.bind, Except.bind] at h
      · rw [hf] at h
        rcases hr : convert_dynamodb_item_to_dict rest with e | r
        · rw [hr] at h
          simp [Bind.bind, Except.bind] at h
        · rw [hr] at h
          simp only [Bind.bind, Except.bind, Except.ok.injEq] at h
          subst h
          simp [ih r hr]

/-- C10 (witness): applied at a concrete two-attribute item. -/
theorem C10_witness :
    convert_dynamodb_item_to_dict [("a", AttrValue.S "x"), ("b", AttrValue.N "1")] =
      .ok [("a", Flat.str "x"), ("b", Flat.int 1)] ∧
    ([("a", Flat.str "x"), ("b", Flat.int 1)].map Prod.fst =
      [("a", AttrValue.S "x"), ("b", AttrValue.N "1")].map Prod.fst) :=
  ⟨rfl, C10_theorem _ _ rfl⟩

/-- Character data of a not-equals filter value. -/
theorem bang_append_data (t : String) : ("!=" ++ t).data = '!' :: '=' :: t.data := rfl

/-- A not-equals filter value is never the empty string. -/
theorem bang_append_ne_empty (t : String) : ("!=" ++ t) ≠ "" := by
  intro h
  have h3 := congrArg String.data h
  rw [bang_append_data, show ("" : String).data = ([] : List Char) from rfl] at h3
  simp at h3

/-- A not-equals filter value is never the literal two-quote string. -/
theorem bang_append_ne_quotes (t : String) : ("!=" ++ t) ≠ "\"\"" := by
  intro h
  have h3 := congrArg String.data h
  rw [bang_append_data, show ("\"\"" : String).data = ['"', '"'] from rfl] at h3
  simp at h3

/-- Branch selection in `apply_filters` for a filter value beginning
with `!=`: the clause compares the projected attribute text against the
remaining operand, an absent attribute passing exactly when the operand
is non-empty. -/
theorem clausePasses_notEq (item : RawItem) (fk t : String) :
    clausePasses item fk ("!=" ++ t) =
      (match lookupAttr item fk with
       | none => t != ""
       | some v => projAttr v != t) := by
  have hcond : ¬(("!=" ++ t) = "" ∨ ("!=" ++ t) = "\"\"") := by
    rintro (h | h)
    · exact bang_append_ne_empty t h
    · exact bang_append_ne_quotes t h
  unfold clausePasses
  rw [if_neg hcond]
  rfl

/-- C4: for every not-equals clause, an absent attribute passes iff the
operand is non-empty, and a present attribute passes iff its text
projection (String text, Number raw text, `True`/`False` for Boolean,
empty for Null, debug string otherwise) differs from the operand. -/
theorem C4_theorem :
    (∀ (item : RawItem) (attr target : String),
      (lookupAttr item attr = none →
        (clausePasses item attr ("!=" ++ target) = true ↔ target ≠ "")) ∧
      (∀ v, lookupAttr item attr = some v →
        (clausePasses item attr ("!=" ++ target) = true ↔ projAttr v ≠ target))) ∧
    (∀ s, projAttr (.S s) = s) ∧
    (∀ s, projAttr (.N s) = s) ∧
    projAttr (.BOOL true) = "True" ∧
    projAttr (.BOOL false) = "False" ∧
    (∀ b, projAttr (.NULL b) = "") := by
  refine ⟨?_, fun s => rfl, fun s => rfl, rfl, rfl, fun b => rfl⟩
  intro item attr target
  constructor
  · intro h
    rw [clausePasses_notEq, h]
    simp [bne_iff_ne]
  · intro v h
    rw [clausePasses_notEq, h]
    simp [bne_iff_ne]

/-- C4 (witness): a present String attribute against operand `"y"`. -/
theorem C4_witness :
    lookupAttr [("a", AttrValue.S "x")] "a" = some (AttrValue.S "x") ∧
    (clausePasses [("a", AttrValue.S "x")] "a" ("!=" ++ "y") = true ↔
      projAttr (AttrValue.S "x") ≠ "y") :=
  ⟨rfl, (C4_theorem.1 [("a", AttrValue.S "x")] "a" "y").2 (AttrValue.S "x") rfl⟩

/-- C5: the is-empty clause passes exactly when the attribute is
absent, present with `Null` true, or present as the String `""`; every
other populated value fails. -/
theorem C5_theorem : ∀ (item : RawItem) (attr : String),
    clausePasses item attr "" = true ↔
      (lookupAttr item attr = none ∨
       lookupAttr item attr = some (.NULL true) ∨
       lookupAttr item attr = some (.S "")) := by
  intro item attr
  unfold clausePasses
  rw [if_pos (Or.inl rfl)]
  rcases h : lookupAttr item attr with _ | v
  · simp [h]
  · cases v <;> simp [h]

/-- C3 (counterexample): on an attribute present as a Number with empty
payload, the is-not-empty clause and the is-empty clause BOTH fail, so
is-not-empty is not the logical complement of is-empty. -/
theorem C3_counterexample :
    ¬(clausePasses [("a", AttrValue.N "")] "a" "!=" = true ↔
      clausePasses [("a", AttrValue.N "")] "a" "" = false) := by decide

/-- C3 (amended): the is-not-empty clause passes iff the attribute is
present with a non-empty text projection (in particular an absent
attribute fails it); this complements is-empty except for present
values whose projection is empty without being `Null` true or String
`""` (e.g. a Number with empty payload, or `Null` false), which fail
both clauses. -/
theorem C3_theorem : ∀ (item : RawItem) (attr : String),
    (clausePasses item attr "!=" = true ↔
      ∃ v, lookupAttr item attr = some v ∧ projAttr v ≠ "") ∧
    (lookupAttr item attr = none → clausePasses item attr "!=" = false) := by
  intro item attr
  have he : ("!=" : String) = "!=" ++ "" := rfl
  constructor
  · rw [he, clausePasses_notEq]
    rcases h : lookupAttr item attr with _ | v
    · simp [h]
    · simp [h, bne_iff_ne]
  · intro h
    rw [he, clausePasses_notEq, h]
    simp

/-- C3 (witness): an absent attribute fails the is-not-empty clause. -/
theorem C3_witness :
    lookupAttr [] "a" = none ∧ clausePasses [] "a" "!=" = false :=
  ⟨rfl, (C3_theorem [] "a").2 rfl⟩

/-- C2 (code bug): parsing splits on the first `=`, so the line
`status!=ACTIVE` yields attribute `status!` and operand `ACTIVE`; under
`apply_filters` that is an equals clause on the attribute `status!`,
not a not-equals clause on `status` — an item with `status` = String
`"DELETED"` is dropped, although the not-equals semantics promised by
the prompt (third conjunct, the engine's own `!=` branch) would pass
it. -/
theorem C2_theorem :
    parse_filter_line "status!=ACTIVE" = some ("status!", "ACTIVE") ∧
    apply_filters [[("status", AttrValue.S "DELETED")]] [("status!", "ACTIVE")] = [] ∧
    clausePasses [("status", AttrValue.S "DELETED")] "status" "!=ACTIVE" = true :=
  ⟨by decide, rfl, by decide⟩

/-- Every alias of a candidate key list that is present with a
String-typed value contributes its labels to the group result — not
just the first present alias. -/
theorem groupLabels_mem {item : RawItem} {f : String → List String} :
    ∀ (ks : List String) (k v : String), k ∈ ks →
      lookupAttr item k = some (.S v) →
      ∀ lab ∈ f v, lab ∈ groupLabels item f ks := by
  intro ks
  induction ks with
  | nil =>
      intro k v hk
      simp at hk
  | cons k0 ks2 ih =>
      intro k v hk hl lab hlab
      rw [groupLabels]
      rcases List.mem_cons.1 hk with rfl | hk2
      · rw [hl]
        exact List.mem_append.2 (Or.inl hlab)
      · exact List.mem_append.2 (Or.inr (ih k v hk2 hl lab hlab))

/-- A label contributed by any of the three key groups survives into
`itemPatterns` (the `"unknown"` fallback only fires when no label was
produced). -/
theorem mem_itemPatterns_of_mem {item : RawItem} {lab : String}
    (h : lab ∈ groupLabels item (fun v => ["EntityType: " ++ v]) typeKeys ++
         groupLabels item skLabel skKeys ++
         groupLabels item pkLabels pkKeys) :
    lab ∈ itemPatterns item := by
  unfold itemPatterns
  dsimp only
  split
  · rename_i he
    rw [List.isEmpty_iff] at he
    rw [he] at h
    simp at h
  · exact h

/-- C8 (counterexample): with both `SK` and `sk` present and
String-typed, the detector emits one label per present alias — the
label of the second alias `sk` appears (with count 1), which could not
happen if only the first present alias were consulted. -/
theorem C8_counterexample :
    itemPatterns [("SK", AttrValue.S "A#1"), ("sk", AttrValue.S "B#2")] =
      ["SK prefix: A", "SK prefix: B"] ∧
    detect_entity_types [[("SK", AttrValue.S "A#1"), ("sk", AttrValue.S "B#2")]] 100
      "SK prefix: B" = 1 ∧
    ["SK prefix: A", "SK prefix: B"] ≠ (["SK prefix: A"] : List String) :=
  ⟨by decide, by decide, by decide⟩

/-- C8 (amended): the entity pattern detector consults EVERY alias of
each candidate key list in list order; every alias present with a
String-typed value contributes its label(s), so an item with two
present aliases of the same group emits a label derived from each. -/
theorem C8_theorem : ∀ item : RawItem,
    (∀ k v, k ∈ typeKeys → lookupAttr item k = some (.S v) →
      ("EntityType: " ++ v) ∈ itemPatterns item) ∧
    (∀ k v, k ∈ skKeys → lookupAttr item k = some (.S v) →
      ∀ lab ∈ skLabel v, lab ∈ itemPatterns item) ∧
    (∀ k v, k ∈ pkKeys → lookupAttr item k = some (.S v) →
      ∀ lab ∈ pkLabels v, lab ∈ itemPatterns item) := by
  intro item
  refine ⟨?_, ?_, ?_⟩
  · intro k v hk hl
    refine mem_itemPatterns_of_mem (List.mem_append.2 (Or.inl (List.mem_append.2 (Or.inl ?_))))
    exact groupLabels_mem typeKeys k v hk hl _ (List.mem_singleton.2 rfl)
  · intro k v hk hl lab hlab
    refine mem_itemPatterns_of_mem (List.mem_append.2 (Or.inl (List.mem_append.2 (Or.inr ?_))))
    exact groupLabels_mem skKeys k v hk hl lab hlab
  · intro k v hk hl lab hlab
    refine mem_itemPatterns_of_mem (List.mem_append.2 (Or.inr ?_))
    exact groupLabels_mem pkKeys k v hk hl lab hlab

/-- C8 (witness): the second sort-key alias `sk` contributes its own
prefix label on an item where `SK` is also present. -/
theorem C8_witness :
    ("sk" ∈ skKeys) ∧
    lookupAttr [("SK", AttrValue.S "A#1"), ("sk", AttrValue.S "B#2")] "sk" =
      some (AttrValue.S "B#2") ∧
    "SK prefix: B" ∈ itemPatterns [("SK", AttrValue.S "A#1"), ("sk", AttrValue.S "B#2")] :=
  ⟨by decide, rfl,
    (C8_theorem [("SK", AttrValue.S "A#1"), ("sk", AttrValue.S "B#2")]).2.1
      "sk" "B#2" (by decide) rfl "SK prefix: B" (by decide)⟩

/-- Inserting into the bounded sample set grows it by at most one. -/
theorem setAdd_length_le (x : String) (l : List String) :
    (setAdd x l).length ≤ l.length + 1 := by
  unfold setAdd
  split
  · omega
  · simp

/-- One profile update keeps the sample-value set within the cap of
10. -/
theorem profileValue_sample_le (p : AttrProfile) (v : AttrValue)
    (h : p.sample_values.length ≤ 10) :
    (profileValue p v).sample_values.length ≤ 10 := by
  cases v <;> simp only [profileValue] <;> try exact h
  rename_i s
  split
  · rename_i hlt
    have := setAdd_length_le s p.sample_values
    omega
  · exact h

/-- Pointwise stats update keeps every sample-value set within the
cap. -/
theorem updateStats_sample_le {st : String → AttrProfile}
    (h : ∀ k2, (st k2).sample_values.length ≤ 10) (k : String) (v : AttrValue) :
    ∀ k2, ((updateStats st k v) k2).sample_values.length ≤ 10 := by
  intro k2
  unfold updateStats
  split
  · exact profileValue_sample_le _ _ (h k)
  · exact h k2

/-- Folding one item's attributes preserves the cap invariant. -/
theorem foldPairs_sample_le :
    ∀ (pairs : List (String × AttrValue)) (st : String → AttrProfile),
      (∀ k2, (st k2).sample_values.length ≤ 10) →
      ∀ k2, ((pairs.foldl (fun st2 kv => updateStats st2 kv.1 kv.2) st) k2).sample_values.length
        ≤ 10 := by
  intro pairs
  induction pairs with
  | nil => intro st h k2; exact h k2
  | cons kv rest ih =>
      intro st h k2
      exact ih _ (updateStats_sample_le h kv.1 kv.2) k2

/-- Folding the sampled items preserves the cap invariant. -/
theorem foldItems_sample_le :
    ∀ (its : List RawItem) (st : String → AttrProfile),
      (∀ k2, (st k2).sample_values.length ≤ 10) →
      ∀ k2, ((its.foldl
          (fun st item => item.foldl (fun st2 kv => updateStats st2 kv.1 kv.2) st) st)
          k2).sample_values.length ≤ 10 := by
  intro its
  induction its with
  | nil => intro st h k2; exact h k2
  | cons item rest ih =>
      intro st h k2
      exact ih _ (foldPairs_sample_le item st h) k2

/-- C9: the schema profiler aggregates only over the first
`min(length, sample_size)` items — profiling the truncated sequence
gives the identical result — and every attribute's retained set of
sample string values holds at most 10 distinct values. -/
theorem C9_theorem :
    (∀ (items : List RawItem) (n : Nat),
      analyze_table_schema items n = analyze_table_schema (items.take n) n) ∧
    (∀ (items : List RawItem) (n : Nat) (attr : String),
      ((analyze_table_schema items n) attr).sample_values.length ≤ 10) := by
  constructor
  · intro items n
    by_cases h1 : items.isEmpty
    · rw [List.isEmpty_iff] at h1
      subst h1
      simp [analyze_table_schema]
    · by_cases h2 : (items.take n).isEmpty
      · have ht : items.take n = [] := List.isEmpty_iff.1 h2
        simp [analyze_table_schema, h1, h2, ht]
      · simp [analyze_table_schema, h1, h2, List.take_take, Nat.min_self]
  · intro items n attr
    unfold analyze_table_schema
    split
    · simp [emptyProfile]
    · exact foldItems_sample_le (items.take n) _ (fun k2 => by simp [emptyProfile]) attr
